import Mathlib

/-!
Verification development for the Robin expense-tracking dialogue engine
(`functions/src/robin.ts`).  The engine is shallowly embedded: timestamps
are integers (schematic minutes; the external date library's calendar
arithmetic is abstracted), JS numbers are rationals, and the dynamically
typed NLU payload is modelled by the documented boundary shape together
with the alternative trait shape the code actually indexes.  Asynchronous
rule evaluation is sequential in the source, so rules become pure state
transformers; the epsilon-transition recursion of `execute` is indexed by
explicit fuel because the source recursion has no bound.
-/

namespace Robin

/-- Timestamps: schematic minutes since an epoch.  Luxon `DateTime` values
are only compared, copied, and formatted; we abstract them to integers. -/
abbrev DT := Int

/-- Durable per-user context (`IRobinContext` in the source). -/
structure IRobinContext where
  isActive : Bool
  state : String
  userName : String
  lastMessageOn : DT
  messageCounter : Nat
  lastGreetingOn : DT
  jokeCounter : Nat
  lastJokeOn : DT
  budget : ℚ
  currentExpenseItem : Option String
  currentExpenseValue : Option ℚ
  currentExpenseIncurredOn : Option DT
  deriving Repr, DecidableEq

/-- `defaultContext()` from the source; `DateTime.local()` becomes the
`now` parameter and `DateTime.fromSeconds(0)` becomes `0`. -/
def defaultContext (now : DT) : IRobinContext :=
  { state := "init"
    isActive := true
    userName := ""
    lastMessageOn := now
    messageCounter := 0
    lastGreetingOn := 0
    jokeCounter := 0
    lastJokeOn := 0
    budget := 500
    currentExpenseItem := none
    currentExpenseValue := none
    currentExpenseIncurredOn := none }

/-- Luxon `Interval` value: a from/to pair of instants.
(`end` is a Lean keyword, hence `endT`.) -/
structure IntervalT where
  start : DT
  endT : DT
  deriving Repr, DecidableEq

/-- Ephemeral money fact (`IEphemeralContext.money`). -/
structure MoneyFact where
  body : String
  value : ℚ
  deriving Repr, DecidableEq

/-- Ephemeral moment fact (`IEphemeralContext.moment`); the grain is kept
as the raw string the dynamically typed source assigns. -/
structure MomentFact where
  grain : String
  value : DT
  deriving Repr, DecidableEq

/-- Ephemeral interval fact (`IEphemeralContext.interval`). -/
structure IntervalFact where
  grain : String
  value : IntervalT
  deriving Repr, DecidableEq

/-- Per-turn ephemeral facts (`IEphemeralContext`); `sentiment` is a raw
string because the source assigns the NLU payload's value unchecked. -/
structure Eph where
  greetings : Bool
  bye : Bool
  thanks : Bool
  sentiment : String
  intent : String
  item : Option String
  money : Option MoneyFact
  moment : Option MomentFact
  interval : Option IntervalFact
  deriving Repr, DecidableEq

/-- The empty-default ephemeral scaffold built at the start of `process`. -/
def ephDefault : Eph :=
  { greetings := false, bye := false, thanks := false
    sentiment := "neutral", intent := ""
    item := none, money := none, moment := none, interval := none }

/-- An expense record returned by the `queryExpenses` collaborator. -/
structure Expense where
  item : String
  value : ℚ
  incurredOn : DT
  deriving Repr, DecidableEq

/-- The expense-query collaborator, abstracted to a pure function. -/
abbrev QE := IntervalT → List Expense

/-- Emitted action (`IRobinAddExpenseAction`); `type` is always the
string "add_expense" in the source. -/
structure RobinAction where
  type : String
  item : String
  value : ℚ
  incurredOn : DT
  deriving Repr, DecidableEq

/-- JS truthiness of an optional string: `undefined` and `""` are falsy. -/
def sTruthy : Option String → Bool
  | none => false
  | some s => decide (s ≠ "")

/-- JS truthiness of an optional number: `undefined` and `0` are falsy. -/
def qTruthy : Option ℚ → Bool
  | none => false
  | some v => decide (v ≠ 0)

/-- Modelled from the spec: the message-catalog collaborator
(`ROBIN_MESSAGES` from the missing `messages.ts`).  The spec gives only
its contract: `any(key, vars)` returns a collaborator-chosen variant
string (abstracted here to one string per key, interpolation folded into
the collaborator's choice) and `joke.get(index, fallback)` is an
index-bounded lookup with fallback, `joke.length` its list length. -/
structure Msgs where
  help : String
  introduction : String
  bot : String
  deleteAccountConfirmation : String
  accountDeletionConfirmed : String
  accountDeletionCanceled : String
  specifyBudget : String
  settingBudget : String
  queryBudget : String
  queryAffordability : String
  specifyAffordabilityValue : String
  addExpense : String
  expenseCompleted : String
  specifyExpenseItem : String
  specifyExpenseMoment : String
  specifyExpenseValue : String
  noExpenses : String
  expenseSummary : String
  expenseTotal : String
  thanks : String
  hi : String
  bye : String → String
  confused : String
  personalGreeting : String → String
  genericGreeting : String
  welcome : String
  joke : List String
  doneJoking : String

/-- A concrete catalog used by closed witness evaluations. -/
def msgs0 : Msgs :=
  { help := "help", introduction := "introduction", bot := "bot"
    deleteAccountConfirmation := "deleteAccountConfirmation"
    accountDeletionConfirmed := "accountDeletionConfirmed"
    accountDeletionCanceled := "accountDeletionCanceled"
    specifyBudget := "specifyBudget", settingBudget := "settingBudget"
    queryBudget := "queryBudget", queryAffordability := "queryAffordability"
    specifyAffordabilityValue := "specifyAffordabilityValue"
    addExpense := "addExpense", expenseCompleted := "expenseCompleted"
    specifyExpenseItem := "specifyExpenseItem"
    specifyExpenseMoment := "specifyExpenseMoment"
    specifyExpenseValue := "specifyExpenseValue"
    noExpenses := "noExpenses", expenseSummary := "expenseSummary"
    expenseTotal := "expenseTotal", thanks := "thanks", hi := "hi"
    bye := fun n => "bye " ++ n, confused := "confused"
    personalGreeting := fun n => "personalGreeting " ++ n
    genericGreeting := "genericGreeting", welcome := "welcome"
    joke := ["joke0", "joke1"], doneJoking := "doneJoking" }

/-- Engine accumulator state: the `messages` and `actions` fields of the
`RobinLogic` instance together with the (copied) durable context. -/
structure EState where
  messages : List String
  actions : List RobinAction
  ctx : IRobinContext
  deriving Repr, DecidableEq

/-- A rule's directive: the next-state string (possibly `"!"`-suffixed,
`""` for "not applicable") plus the informational event tag. -/
structure Directive where
  next : String
  tag : Option String
  deriving Repr, DecidableEq

/-- A rule: inspects facts/context, appends messages/actions, returns a
directive (the source's async closures, made pure and sequential). -/
abbrev Rule := EState → EState × Directive

/-- `this.say(message)`. -/
def say (es : EState) (m : String) : EState :=
  { es with messages := es.messages ++ [m] }

/-- `this.action(action)`. -/
def action (es : EState) (a : RobinAction) : EState :=
  { es with actions := es.actions ++ [a] }

/-- `this.sayHi()`: personalized when `userName` is truthy. -/
def sayHi (M : Msgs) (es : EState) : EState :=
  if es.ctx.userName ≠ "" then say es (M.personalGreeting es.ctx.userName)
  else say es M.genericGreeting

/-- `this.sayWelcome()`. -/
def sayWelcome (M : Msgs) (es : EState) : EState :=
  say es M.welcome

/-- `this.sayJoke()`: index-bounded joke with the done-joking fallback,
counter saturating at the joke-list length, `lastJokeOn` set to now. -/
def sayJoke (M : Msgs) (now : DT) (es : EState) : EState :=
  let es := say es (M.joke.getD es.ctx.jokeCounter M.doneJoking)
  { es with ctx := { es.ctx with
      jokeCounter := min (es.ctx.jokeCounter + 1) M.joke.length
      lastJokeOn := now } }

/-- `this.timeout(minutes)`: the source computes
`lastMessageOn.diffNow("minutes").minutes > minutes`, i.e. the signed
difference `lastMessageOn - now` compared against the bound. -/
def timeoutCheck (now : DT) (ctx : IRobinContext) (minutes : Int) : Bool :=
  decide (ctx.lastMessageOn - now > minutes)

/-- Minutes per calendar grain (schematic: the external date library's
calendar arithmetic is abstracted to fixed-length grains). -/
def grainMinutes (g : String) : Int :=
  if g = "day" then 1440
  else if g = "week" then 10080
  else if g = "month" then 43200
  else if g = "year" then 525600
  else 1440

/-- Schematic `DateTime#startOf(grain)`. -/
def startOf (g : String) (t : DT) : DT :=
  (t / grainMinutes g) * grainMinutes g

/-- Schematic `DateTime#endOf(grain)`. -/
def endOf (g : String) (t : DT) : DT :=
  startOf g t + grainMinutes g - 1

/-- The week interval `Interval.fromDateTimes(now.startOf("week"),
now.endOf("week"))` used by the budget queries. -/
def thisWeek (now : DT) : IntervalT :=
  ⟨startOf "week" now, endOf "week" now⟩

/-- `expenses.reduce((p, c) => p + c.value, 0)`. -/
def totalOf (es : List Expense) : ℚ :=
  es.foldl (fun p c => p + c.value) 0

/-- Schematic `toLocaleString(DateTime.DATE_FULL)` for an instant. -/
def fmtDate (t : DT) : String := toString t

/-- Schematic JS number formatting used inside reply strings. -/
def fmtQ (v : ℚ) : String := toString v

/-! ### The rule table (`RobinLogic.states`) -/

/-- `init.first_interaction`: greet, welcome, epsilon into `main`. -/
def ruleFirstInteraction (M : Msgs) : Rule := fun es =>
  (sayWelcome M (sayHi M es), ⟨"main!", none⟩)

/-- `main.request_help`. -/
def ruleRequestHelp (M : Msgs) (eph : Eph) : Rule := fun es =>
  if eph.intent ≠ "request_help" then (es, ⟨"", none⟩)
  else (say es M.help, ⟨"main", none⟩)

/-- `main.tell_joke`. -/
def ruleTellJoke (M : Msgs) (now : DT) (eph : Eph) : Rule := fun es =>
  if eph.intent ≠ "tell_joke" then (es, ⟨"", none⟩)
  else (sayJoke M now es, ⟨"main", none⟩)

/-- `main.who_are_you`. -/
def ruleWhoAreYou (M : Msgs) (eph : Eph) : Rule := fun es =>
  if eph.intent ≠ "who_are_you" then (es, ⟨"", none⟩)
  else (say es M.introduction, ⟨"main", none⟩)

/-- `main.are_you_bot`. -/
def ruleAreYouBot (M : Msgs) (eph : Eph) : Rule := fun es =>
  if eph.intent ≠ "are_you_bot" then (es, ⟨"", none⟩)
  else (say es M.bot, ⟨"main", none⟩)

/-- `main.delete_account`: confirm prompt, then the confirmation state. -/
def ruleDeleteAccount (M : Msgs) (eph : Eph) : Rule := fun es =>
  if eph.intent ≠ "delete_account" then (es, ⟨"", none⟩)
  else (say es M.deleteAccountConfirmation, ⟨"delete_account", none⟩)

/-- `main.set_budget`: epsilon into the `set_budget` state. -/
def ruleSetBudgetIntent (eph : Eph) : Rule := fun es =>
  if eph.intent ≠ "set_budget" then (es, ⟨"", none⟩)
  else (es, ⟨"set_budget!", none⟩)

/-- `main.query_budget`: report budget and balance over this week. -/
def ruleQueryBudget (M : Msgs) (qe : QE) (now : DT) (eph : Eph) : Rule := fun es =>
  if eph.intent ≠ "query_budget" then (es, ⟨"", none⟩)
  else
    let _totalExpenses := totalOf (qe (thisWeek now))
    (say es M.queryBudget, ⟨"main", none⟩)

/-- `main.query_affordability`: ask for a value when no money fact,
else report the balance after the proposed amount. -/
def ruleQueryAffordability (M : Msgs) (qe : QE) (now : DT) (eph : Eph) : Rule := fun es =>
  if eph.intent ≠ "query_affordability" then (es, ⟨"", none⟩)
  else
    match eph.money with
    | none => (say es M.specifyAffordabilityValue, ⟨"main", none⟩)
    | some _ =>
      let _totalExpenses := totalOf (qe (thisWeek now))
      (say es M.queryAffordability, ⟨"main", none⟩)

/-- `main.add_expense`: clear the three slots, announce the flow when the
turn carried no slot-relevant fact, epsilon into `add_expense`. -/
def ruleAddExpenseIntent (M : Msgs) (eph : Eph) : Rule := fun es =>
  if eph.intent ≠ "add_expense" then (es, ⟨"", none⟩)
  else
    let es := { es with ctx := { es.ctx with
      currentExpenseItem := none
      currentExpenseIncurredOn := none
      currentExpenseValue := none } }
    let es :=
      if !sTruthy eph.item && eph.interval.isNone && eph.moment.isNone
          && eph.money.isNone then
        say es M.addExpense
      else es
    (es, ⟨"add_expense!", none⟩)

/-- `main.query_summary`: resolve the reporting interval (explicit
interval fact, else the moment's grain bounds, else this week), then
either the no-expenses reply or the summary, the itemized list and the
total. -/
def ruleQuerySummary (M : Msgs) (qe : QE) (now : DT) (eph : Eph) : Rule := fun es =>
  if eph.intent ≠ "query_summary" then (es, ⟨"", none⟩)
  else
    let interval : IntervalT :=
      match eph.interval with
      | some iv => iv.value
      | none =>
        match eph.moment with
        | some m => ⟨startOf m.grain m.value, endOf m.grain m.value⟩
        | none => thisWeek now
    let expenses := qe interval
    if expenses.length = 0 then
      (say es M.noExpenses, ⟨"main", none⟩)
    else
      let es := say es M.expenseSummary
      let es := say es (String.intercalate "\n\n"
        (expenses.map (fun e =>
          fmtDate e.incurredOn ++ ": " ++ e.item ++ ", $" ++ fmtQ e.value)))
      let es := say es M.expenseTotal
      (es, ⟨"main", none⟩)

/-- `main.confused`: catch-all, consulted only when no message has been
produced this turn; priority thanks, greetings, bye, generic confusion. -/
def ruleConfused (M : Msgs) (eph : Eph) : Rule := fun es =>
  let es :=
    if es.messages.length = 0 then
      if eph.thanks then say es M.thanks
      else if eph.greetings then say es M.hi
      else if eph.bye then say es (M.bye es.ctx.userName)
      else say es M.confused
    else es
  (es, ⟨"main", none⟩)

/-- `delete_account.confirmation`: timeout abort, confirm (deactivates
the account), cancel, or a confusion re-prompt that stays put. -/
def ruleConfirmation (M : Msgs) (now : DT) (eph : Eph) : Rule := fun es =>
  if timeoutCheck now es.ctx 3 then
    (es, ⟨"main", some "timeout"⟩)
  else if eph.intent = "feedback_positive" then
    let es := { es with ctx := { es.ctx with isActive := false } }
    (say es M.accountDeletionConfirmed, ⟨"main", some "positive"⟩)
  else if eph.intent = "feedback_negative" then
    (say es M.accountDeletionCanceled, ⟨"main", some "negative"⟩)
  else
    (say es M.confused, ⟨"", some "confused"⟩)

/-- `set_budget.set_budget`: re-prompt without a money fact, else store
the budget and confirm. -/
def ruleSetBudget (M : Msgs) (eph : Eph) : Rule := fun es =>
  match eph.money with
  | none => (say es M.specifyBudget, ⟨"", none⟩)
  | some m =>
    let es := { es with ctx := { es.ctx with budget := m.value } }
    (say es M.settingBudget, ⟨"main", none⟩)

/-- The item-fill `if` of `add_expense.add_expense` (JS truthiness: an
empty item string counts as missing, on both sides). -/
def fillItem (eph : Eph) (es : EState) : EState :=
  if sTruthy eph.item && !sTruthy es.ctx.currentExpenseItem then
    { es with ctx := { es.ctx with currentExpenseItem := eph.item } }
  else es

/-- The moment-fill `if`/`else if` of `add_expense.add_expense`: a
moment fact wins; otherwise an interval fact contributes its start. -/
def fillMoment (eph : Eph) (es : EState) : EState :=
  if eph.moment.isSome && es.ctx.currentExpenseIncurredOn.isNone then
    { es with ctx := { es.ctx with
        currentExpenseIncurredOn := eph.moment.map MomentFact.value } }
  else if eph.interval.isSome && es.ctx.currentExpenseIncurredOn.isNone then
    { es with ctx := { es.ctx with
        currentExpenseIncurredOn := eph.interval.map (fun iv => iv.value.start) } }
  else es

/-- The value-fill `if` of `add_expense.add_expense` (JS truthiness: a
stored value of `0` counts as missing and may be overwritten). -/
def fillValue (eph : Eph) (es : EState) : EState :=
  if eph.money.isSome && !qTruthy es.ctx.currentExpenseValue then
    { es with ctx := { es.ctx with
        currentExpenseValue := eph.money.map MoneyFact.value } }
  else es

/-- `add_expense.add_expense`: fill any still-missing slot from the
facts, epsilon to the matching `specify_expense_*` state while a slot
is missing, else emit the action, confirm, and return to `main`. -/
def ruleAddExpense (M : Msgs) (eph : Eph) : Rule := fun es =>
  let es := fillItem eph es
  let es := fillMoment eph es
  let es := fillValue eph es
  if !sTruthy es.ctx.currentExpenseItem then
    (es, ⟨"specify_expense_item!", none⟩)
  else if es.ctx.currentExpenseIncurredOn.isNone then
    (es, ⟨"specify_expense_moment!", none⟩)
  else if !qTruthy es.ctx.currentExpenseValue then
    (es, ⟨"specify_expense_value!", none⟩)
  else
    let es := action es
      { type := "add_expense"
        item := es.ctx.currentExpenseItem.getD ""
        value := es.ctx.currentExpenseValue.getD 0
        incurredOn := es.ctx.currentExpenseIncurredOn.getD 0 }
    (say es M.expenseCompleted, ⟨"main", some "expense_added"⟩)

/-- `specify_expense_item.specify_expense_item`. -/
def ruleSpecifyItem (M : Msgs) (eph : Eph) : Rule := fun es =>
  if !sTruthy eph.item then
    (say es M.specifyExpenseItem, ⟨"", none⟩)
  else
    ({ es with ctx := { es.ctx with currentExpenseItem := eph.item } },
      ⟨"add_expense!", some "item_specified"⟩)

/-- `specify_expense_moment.specify_expense_moment`. -/
def ruleSpecifyMoment (M : Msgs) (eph : Eph) : Rule := fun es =>
  if eph.moment.isNone && eph.interval.isNone then
    (say es M.specifyExpenseMoment, ⟨"", none⟩)
  else if eph.moment.isSome then
    ({ es with ctx := { es.ctx with
        currentExpenseIncurredOn := eph.moment.map MomentFact.value } },
      ⟨"add_expense!", some "moment_specified"⟩)
  else
    ({ es with ctx := { es.ctx with
        currentExpenseIncurredOn := eph.interval.map (fun iv => iv.value.start) } },
      ⟨"add_expense!", some "moment_specified"⟩)

/-- `specify_expense_value.specify_expense_value`. -/
def ruleSpecifyValue (M : Msgs) (eph : Eph) : Rule := fun es =>
  match eph.money with
  | none => (say es M.specifyExpenseValue, ⟨"", none⟩)
  | some m =>
    ({ es with ctx := { es.ctx with currentExpenseValue := some m.value } },
      ⟨"add_expense!", some "value_specified"⟩)

/-- The ordered rule list of each state; `this.states[state] ||
this.states["init"]` falls back to `init`'s list for unknown names. -/
def stateRules (M : Msgs) (qe : QE) (now : DT) (eph : Eph) (name : String) :
    List (String × Rule) :=
  if name = "main" then
    [("request_help", ruleRequestHelp M eph),
     ("tell_joke", ruleTellJoke M now eph),
     ("who_are_you", ruleWhoAreYou M eph),
     ("are_you_bot", ruleAreYouBot M eph),
     ("delete_account", ruleDeleteAccount M eph),
     ("set_budget", ruleSetBudgetIntent eph),
     ("query_budget", ruleQueryBudget M qe now eph),
     ("query_affordability", ruleQueryAffordability M qe now eph),
     ("add_expense", ruleAddExpenseIntent M eph),
     ("query_summary", ruleQuerySummary M qe now eph),
     ("confused", ruleConfused M eph)]
  else if name = "delete_account" then
    [("confirmation", ruleConfirmation M now eph)]
  else if name = "set_budget" then
    [("set_budget", ruleSetBudget M eph)]
  else if name = "add_expense" then
    [("add_expense", ruleAddExpense M eph)]
  else if name = "specify_expense_item" then
    [("specify_expense_item", ruleSpecifyItem M eph)]
  else if name = "specify_expense_moment" then
    [("specify_expense_moment", ruleSpecifyMoment M eph)]
  else if name = "specify_expense_value" then
    [("specify_expense_value", ruleSpecifyValue M eph)]
  else
    [("first_interaction", ruleFirstInteraction M)]

/-- The epsilon marker: `next[0].endsWith("!")` and `slice(0, -1)`,
expressed over the string's character list. -/
def epsilonTarget (s : String) : Option String :=
  if s.data.getLast? = some '!' then some ⟨s.data.dropLast⟩ else none

/-- The first-match-wins scan of `execute`'s `for` loop: evaluate rules
in order, stopping at the first non-empty directive; report `none` when
every rule declined ("out of options"). -/
def runRules : List (String × Rule) → EState → EState × Option Directive
  | [], es => (es, none)
  | t :: ts, es =>
    let (es', d) := t.2 es
    if d.next = "" then runRules ts es' else (es', some d)

/-- `RobinLogic.execute(state)`, with explicit fuel for the otherwise
unbounded epsilon recursion: `none` means the recursion did not finish
within the given fuel.  The terminal fallback returns the original state
unchanged. -/
def execute (M : Msgs) (qe : QE) (now : DT) (eph : Eph) :
    Nat → String → EState → Option (String × EState)
  | 0, _, _ => none
  | fuel + 1, state, es =>
    match runRules (stateRules M qe now eph state) es with
    | (es', some d) =>
      match epsilonTarget d.next with
      | some t => execute M qe now eph fuel t es'
      | none => some (d.next, es')
    | (es', none) => some (state, es')

/-- One turn's result bundle (`IRobinResult`); the raw NLU payload is
carried through for diagnostics. -/
structure IRobinResult (W : Type) where
  context : IRobinContext
  messages : List String
  actions : List RobinAction
  wit : W
  deriving Repr, DecidableEq

/-- `RobinLogic.transition()`: reset the message list, run `execute`
from the stored state, then bump `messageCounter` and stamp
`lastMessageOn` with "now" (the orchestrator clock, not the input's
timestamp).  `none` reports fuel exhaustion of the epsilon recursion. -/
def transitionF {W : Type} (M : Msgs) (qe : QE) (now : DT) (eph : Eph) (wit : W)
    (fuel : Nat) (ctx : IRobinContext) : Option (IRobinResult W) :=
  match execute M qe now eph fuel ctx.state ⟨[], [], ctx⟩ with
  | none => none
  | some (s', es') =>
    some { context := { es'.ctx with
             state := s'
             messageCounter := es'.ctx.messageCounter + 1
             lastMessageOn := now }
           messages := es'.messages
           actions := es'.actions
           wit := wit }

/-! ### The NLU normalizer (`Robin.processTraits` / `processIntents` /
`processEntities`) and the session orchestrator (`Robin.process`).

The wit payload is dynamically typed in the source.  We model it by the
spec's boundary shape, with two liberties forced by the dynamic code:
trait values may be either the documented `{confidence, value?}` object
or the array of records the sentiment read indexes, and ISO date strings
are abstracted to their parsed instants (parsing is the external date
library's concern). -/

/-- One element of an array-shaped trait value. -/
structure TraitElem where
  confidence : Option ℚ
  value : String
  deriving Repr, DecidableEq

/-- A raw trait value: the documented `{confidence, value?}` object, or
an array of records. -/
inductive TraitVal where
  | obj (confidence : ℚ) (value : Option String)
  | arr (elems : List TraitElem)
  deriving Repr, DecidableEq

/-- A raw entity value: a string, a number, or a parsed date instant. -/
inductive WitVal where
  | str (s : String)
  | num (q : ℚ)
  | time (t : DT)
  deriving Repr, DecidableEq

/-- A raw entity record `{name, type, value|from/to, grain, body}`.  The
extra `typeCheck` field is the (otherwise absent) property the source's
interval branch reads; per the boundary shape it is `none`.  (`from` is
a Lean keyword, hence `fromT`/`toT`.) -/
structure WitEntity where
  name : String
  type : String
  typeCheck : Option String
  value : Option WitVal
  fromT : Option DT
  toT : Option DT
  grain : String
  body : String
  deriving Repr, DecidableEq

/-- A raw intent record. -/
structure WitIntent where
  name : String
  confidence : ℚ
  deriving Repr, DecidableEq

/-- The raw NLU payload; each sub-field may be missing. -/
structure RawWit where
  intents : Option (List WitIntent)
  entities : Option (List (String × List WitEntity))
  traits : Option (List (String × TraitVal))
  deriving Repr, DecidableEq

/-- The payload after `process`'s defaulting of missing sub-fields
(`wit.intents = wit.intents || []` and friends). -/
structure RawWitD where
  intents : List WitIntent
  entities : List (String × List WitEntity)
  traits : List (String × TraitVal)
  deriving Repr, DecidableEq

/-- The defaulting step at the top of `process`. -/
def defaultWit (w : RawWit) : RawWitD :=
  { intents := w.intents.getD []
    entities := w.entities.getD []
    traits := w.traits.getD [] }

/-- JS read of `.confidence` on a trait value: `undefined` on arrays. -/
def traitConfidence : TraitVal → Option ℚ
  | .obj c _ => some c
  | .arr _ => none

/-- JS `a > b` where either side may be `undefined`: false then. -/
def optGt : Option ℚ → Option ℚ → Bool
  | some a, some b => decide (a > b)
  | _, _ => false

/-- JS read of `traitValue[0].value`: succeeds only on a nonempty array;
on the documented object shape (or an empty array) `[0]` is `undefined`
and the `.value` access raises a TypeError. -/
def sentimentRead : TraitVal → Except String String
  | .arr (e :: _) => .ok e.value
  | .arr [] => .error "TypeError: cannot read property of undefined"
  | .obj _ _ => .error "TypeError: cannot read property of undefined"

/-- The flag part of `Robin.processTraits`: thanks/greetings/bye
presence flags and the strict greater-than tie-break between greetings
and bye. -/
def processTraitsFlags (w : RawWitD) (e : Eph) : Eph :=
  let e := { e with thanks := (w.traits.lookup "wit$thanks").isSome }
  let g := w.traits.lookup "wit$greetings"
  let b := w.traits.lookup "wit$bye"
  let e := { e with greetings := g.isSome, bye := b.isSome }
  if e.greetings && e.bye then
    if optGt (g.bind traitConfidence) (b.bind traitConfidence) then
      { e with bye := false }
    else
      { e with greetings := false }
  else e

/-- `Robin.processTraits`: the flag part followed by the sentiment read
(which can throw, making the whole turn fail). -/
def processTraits (w : RawWitD) (e : Eph) : Except String Eph :=
  let e := processTraitsFlags w e
  match w.traits.lookup "wit$sentiment" with
  | none => .ok e
  | some tv =>
    match sentimentRead tv with
    | .error m => .error m
    | .ok v => .ok { e with sentiment := v }

/-- `Robin.processIntents`: the first intent's name, or `""`. -/
def processIntents (w : RawWitD) (e : Eph) : Eph :=
  { e with intent := (w.intents.map WitIntent.name).headD "" }

/-- The `switch` body of `Robin.processEntities` for one entity.  The
interval branch tests the source's `entity.typeCheck` property, exactly
as written. -/
def applyEntity (e : Eph) (ent : WitEntity) : Eph :=
  let numOf : Option WitVal → ℚ := fun v =>
    match v with | some (.num q) => q | _ => 0
  let timeOf : Option WitVal → DT := fun v =>
    match v with | some (.time t) => t | _ => 0
  if ent.name = "item" then
    if ent.type = "value" then
      { e with item := match ent.value with
          | some (.str s) => some s
          | _ => none }
    else e
  else if ent.name = "wit$amount_of_money" then
    if ent.type = "value" then
      { e with money := some ⟨ent.body, numOf ent.value⟩ }
    else e
  else if ent.name = "wit$number" then
    if ent.type = "value" && e.money.isNone then
      { e with money := some ⟨ent.body, numOf ent.value⟩ }
    else e
  else if ent.name = "wit$datetime" then
    if ent.type = "value" then
      { e with moment := some ⟨ent.grain, timeOf ent.value⟩ }
    else if ent.typeCheck = some "interval" then
      { e with interval := some ⟨ent.grain, ⟨ent.fromT.getD 0, ent.toT.getD 0⟩⟩ }
    else e
  else e

/-- `Robin.processEntities`: flatten the per-name grouping, then apply
each entity in order. -/
def processEntities (w : RawWitD) (e : Eph) : Eph :=
  (w.entities.foldl (fun a p => a ++ p.2) []).foldl applyEntity e

/-- The Normalizer: defaulting followed by the three processing passes,
in source order (traits, intents, entities). -/
def normalize (w : RawWit) : Except String Eph :=
  let wd := defaultWit w
  match processTraits wd ephDefault with
  | .error m => .error m
  | .ok e1 => .ok (processEntities wd (processIntents wd e1))

/-- A session descriptor (`IRobinSession`); the voice buffer's contents
are irrelevant to the engine and abstracted to `Unit`. -/
structure Session where
  text : Option String
  voice : Option Unit
  timestamp : DT
  context : IRobinContext
  deriving Repr, DecidableEq

/-- `Robin.queryWit`: route to the text or voice NLU call — the NLU
response itself is the collaborator's and is passed in — or fail with
the usage error when neither input is present.  JS truthiness: an empty
text string is falsy. -/
def queryWitF (session : Session) (witResp : RawWit) : Except String RawWit :=
  if sTruthy session.text then .ok witResp
  else if session.voice.isSome then .ok witResp
  else .error "Either text or voice must be given"

/-- `Robin.process`: copy the durable context (value semantics), build
the ephemeral scaffold, obtain and default the NLU payload, normalize,
then run the state machine's `transition`.  `.ok none` reports fuel
exhaustion of the epsilon recursion. -/
def processF (M : Msgs) (qe : QE) (now : DT) (witResp : RawWit) (fuel : Nat)
    (session : Session) : Except String (Option (IRobinResult RawWitD)) :=
  let context := session.context
  match queryWitF session witResp with
  | .error m => .error m
  | .ok w =>
    let wd := defaultWit w
    match processTraits wd ephDefault with
    | .error m => .error m
    | .ok e1 =>
      let eph := processEntities wd (processIntents wd e1)
      .ok (transitionF M qe now eph wd fuel context)

/-! ### Derived turn notions and concrete inputs used by the theorems -/

/-- JS-truthy money check `∀`-form: a present money fact is nonzero. -/
def moneyOK (eph : Eph) : Prop := ∀ m, eph.money = some m → m.value ≠ 0

/-- The ephemeral facts of a turn whose only content is a recognized
`tell_joke` intent. -/
def ephTellJoke : Eph := { ephDefault with intent := "tell_joke" }

/-- The durable context after one joke-requesting turn: the turn's
result context when the engine completes, the unchanged context
otherwise (the `tell_joke` rule always completes, see below). -/
def jokeStep (M : Msgs) (qe : QE) (now : DT) (ctx : IRobinContext) :
    IRobinContext :=
  match transitionF M qe now ephTellJoke () 8 ctx with
  | some r => r.context
  | none => ctx

/-- An expense collaborator that reports no expenses. -/
def qe0 : QE := fun _ => []

/-- Facts for a `feedback_positive` reply to the deletion confirmation. -/
def ephPositive : Eph := { ephDefault with intent := "feedback_positive" }

/-- A context waiting in the deletion-confirmation state whose last
message was at minute 0. -/
def ctxStale : IRobinContext :=
  { defaultContext 0 with state := "delete_account", lastMessageOn := 0 }

/-- Facts with an unrecognized intent. -/
def ephOther : Eph := { ephDefault with intent := "something_else" }

/-- Facts carrying all three expense slots, with a nonempty item and a
nonzero amount. -/
def ephFull : Eph :=
  { ephDefault with
      intent := "add_expense"
      item := some "coffee"
      money := some ⟨"$5", 5⟩
      moment := some ⟨"day", 3⟩ }

/-- Facts carrying all three expense slots but an empty item string. -/
def ephEmptyItem : Eph := { ephFull with item := some "" }

/-- Facts carrying all three expense slots but a zero amount. -/
def ephZeroMoney : Eph :=
  { ephDefault with
      intent := "add_expense"
      item := some "lunch"
      money := some ⟨"0", 0⟩
      moment := some ⟨"day", 0⟩ }

/-- A second zero-amount fact set (used for the `main`-turn run). -/
def ephZeroMoney2 : Eph :=
  { ephDefault with
      intent := "add_expense"
      item := some "tea"
      money := some ⟨"0", 0⟩
      moment := some ⟨"day", 2⟩ }

/-- A fresh context already sitting in `main`. -/
def ctxMain : IRobinContext := { defaultContext 0 with state := "main" }

/-- The NLU payload of claim C3: one date/time entity of interval type
per the boundary shape (so without the code's `typeCheck` property). -/
def witInterval : RawWit :=
  { intents := none
    traits := none
    entities := some [("wit$datetime",
      [{ name := "wit$datetime", type := "interval", typeCheck := none
         value := none, fromT := some 1, toT := some 2
         grain := "week", body := "this week" }])] }

/-- A payload carrying both the greetings trait (confidence 0.9) and the
bye trait (confidence 0.4), and additionally a boundary-shaped sentiment
trait. -/
def witBothTraits : RawWit :=
  { intents := none, entities := none
    traits := some [("wit$greetings", .obj 0.9 none),
                    ("wit$bye", .obj 0.4 none),
                    ("wit$sentiment", .obj 1 (some "positive"))] }

/-- A payload carrying the greetings trait (confidence 0.9) and the bye
trait (confidence 0.4). -/
def witGreetBye : RawWit :=
  { intents := none, entities := none
    traits := some [("wit$greetings", .obj 0.9 none),
                    ("wit$bye", .obj 0.4 none)] }

/-- A boundary-shaped payload whose only trait is a sentiment trait. -/
def witSentimentObj : RawWit :=
  { intents := none, entities := none
    traits := some [("wit$sentiment", .obj 1 (some "positive"))] }

/-- A payload whose sentiment trait is the nonempty list the code's
index expects. -/
def witSentimentArr : RawWit :=
  { intents := none, entities := none
    traits := some [("wit$sentiment", .arr [⟨some 1, "positive"⟩])] }

/-- A session with neither text nor voice input. -/
def sessionEmpty : Session :=
  { text := none, voice := none, timestamp := 0, context := defaultContext 0 }

/-- The engine state reached from a fresh context, via `init` and
`main`, three epsilon steps into the zero-amount turn: all three slots
filled, the value slot with the falsy `0`. -/
def esLoopZero : EState :=
  ⟨[msgs0.genericGreeting, msgs0.welcome], [],
    { defaultContext 0 with
        currentExpenseItem := some "lunch"
        currentExpenseIncurredOn := some 0
        currentExpenseValue := some 0 }⟩

/-- The engine state reached from `main`, two epsilon steps into the
second zero-amount turn. -/
def esLoopZero2 : EState :=
  ⟨[], [],
    { ctxMain with
        currentExpenseItem := some "tea"
        currentExpenseIncurredOn := some 2
        currentExpenseValue := some 0 }⟩

/-! ### Helper lemmas -/

@[simp]
theorem epsTgt_main : epsilonTarget "main" = none := rfl

@[simp]
theorem epsTgt_deleteAccount : epsilonTarget "delete_account" = none := rfl

@[simp]
theorem epsTgt_mainE : epsilonTarget "main!" = some "main" := rfl

@[simp]
theorem epsTgt_setBudgetE : epsilonTarget "set_budget!" = some "set_budget" := rfl

@[simp]
theorem epsTgt_addExpenseE : epsilonTarget "add_expense!" = some "add_expense" := rfl

@[simp]
theorem epsTgt_specItemE :
    epsilonTarget "specify_expense_item!" = some "specify_expense_item" := rfl

@[simp]
theorem epsTgt_specMomentE :
    epsilonTarget "specify_expense_moment!" = some "specify_expense_moment" := rfl

@[simp]
theorem epsTgt_specValueE :
    epsilonTarget "specify_expense_value!" = some "specify_expense_value" := rfl

theorem say_messages_ne (es : EState) (m : String) :
    (say es m).messages ≠ [] := by
  simp [say]

/-! ### Claim theorems -/

/-- Claim C1 (code bug evaluation): in the `delete_account` confirmation
state with `lastMessageOn` ten minutes in the past (minute 0 versus now
= minute 10), the claim requires an abort to `main` with `isActive`
unchanged for every input; the code's staleness test compares
`lastMessageOn - now > 3`, which is never positive for a past message,
so a `feedback_positive` reply instead confirms the deletion and flips
`isActive` to `false`. -/
theorem deleteAccount_confirmation_ignores_stale_timeout :
    (execute msgs0 qe0 10 ephPositive 8 "delete_account" ⟨[], [], ctxStale⟩).map
        (fun r => (r.1, r.2.ctx.isActive, r.2.messages))
      = some ("main", false, [msgs0.accountDeletionConfirmed]) := rfl

/-- Claim C3 (code bug evaluation): a date/time entity of interval type
(`type = "interval"` with from/to, per the NLU boundary shape) should
set the `interval` fact, but the code's interval branch tests the
nonexistent `typeCheck` property, so normalization returns the ephemeral
facts completely unchanged — `interval` stays unset. -/
theorem interval_datetime_entity_not_normalized :
    normalize witInterval = .ok ephDefault := rfl

/-- Claim C7 (counterexample): normalization is fatal on a payload whose
traits follow the documented `{confidence, value?}` shape for
`wit$sentiment` — the code indexes `[0]` into it and dereferences
`undefined`. -/
theorem sentiment_trait_crashes_normalization :
    normalize witSentimentObj
      = .error "TypeError: cannot read property of undefined" := rfl

/-- Claim C8: when a session has neither text nor voice input, `process`
fails with the usage error before the rule engine runs, so no context
mutation is observable (and the embedding's value semantics mirror the
source's copy of the caller's context). -/
theorem process_requires_text_or_voice (M : Msgs) (qe : QE) (now : DT)
    (witResp : RawWit) (fuel : Nat) (session : Session)
    (ht : session.text = none) (hv : session.voice = none) :
    processF M qe now witResp fuel session
      = .error "Either text or voice must be given" := by
  simp [processF, queryWitF, ht, hv, sTruthy]

/-- Witness for C8 at a concrete empty session. -/
theorem process_requires_text_or_voice_witness :
    sessionEmpty.text = none ∧ sessionEmpty.voice = none ∧
    processF msgs0 qe0 0 witSentimentArr 8 sessionEmpty
      = .error "Either text or voice must be given" :=
  ⟨rfl, rfl, process_requires_text_or_voice msgs0 qe0 0 witSentimentArr 8
    sessionEmpty rfl rfl⟩

/-- Claim C5 (amended): when every rule of the current state's list
returns the empty directive, `execute` returns the original state
unchanged and does not throw; the message list of that resolution path
need not be empty, since declining rules may have emitted re-prompts. -/
theorem execute_all_decline_returns_state_unchanged (M : Msgs) (qe : QE)
    (now : DT) (eph : Eph) (fuel : Nat) (s : String) (es es' : EState)
    (h : runRules (stateRules M qe now eph s) es = (es', none)) :
    execute M qe now eph (fuel + 1) s es = some (s, es') := by
  simp [execute, h]

/-- Witness for C5's amended theorem: in `set_budget` with no money
fact, the single rule declines and the state is returned unchanged. -/
theorem execute_all_decline_witness :
    runRules (stateRules msgs0 qe0 0 ephOther "set_budget")
        ⟨[], [], defaultContext 0⟩
      = (⟨[msgs0.specifyBudget], [], defaultContext 0⟩, none) ∧
    execute msgs0 qe0 0 ephOther 1 "set_budget" ⟨[], [], defaultContext 0⟩
      = some ("set_budget", ⟨[msgs0.specifyBudget], [], defaultContext 0⟩) :=
  ⟨rfl, execute_all_decline_returns_state_unchanged msgs0 qe0 0 ephOther 0
    "set_budget" ⟨[], [], defaultContext 0⟩
    ⟨[msgs0.specifyBudget], [], defaultContext 0⟩ rfl⟩

/-- Claim C5 (counterexample): in the `delete_account` state with an
unrecognized reply (no timeout), the single rule declines — `execute`
falls through with the state unchanged — yet the resolution path's
message list is the nonempty confusion re-prompt, not the empty list the
claim asserts. -/
theorem applyEntity_flags (e : Eph) (ent : WitEntity) :
    (applyEntity e ent).greetings = e.greetings ∧
    (applyEntity e ent).bye = e.bye ∧
    (applyEntity e ent).sentiment = e.sentiment := by
  simp only [applyEntity]
  split_ifs <;> exact ⟨rfl, rfl, rfl⟩

theorem foldl_applyEntity_flags (l : List WitEntity) :
    ∀ e : Eph, (l.foldl applyEntity e).greetings = e.greetings ∧
      (l.foldl applyEntity e).bye = e.bye ∧
      (l.foldl applyEntity e).sentiment = e.sentiment := by
  induction l with
  | nil => intro e; exact ⟨rfl, rfl, rfl⟩
  | cons a l ih =>
    intro e
    have h1 := applyEntity_flags e a
    have h2 := ih (applyEntity e a)
    simp only [List.foldl_cons]
    exact ⟨h2.1.trans h1.1, h2.2.1.trans h1.2.1, h2.2.2.trans h1.2.2⟩

theorem processEntities_flags (w : RawWitD) (e : Eph) :
    (processEntities w e).greetings = e.greetings ∧
    (processEntities w e).bye = e.bye ∧
    (processEntities w e).sentiment = e.sentiment :=
  foldl_applyEntity_flags _ e

theorem processEntities_greetings (w : RawWitD) (e : Eph) :
    (processEntities w e).greetings = e.greetings :=
  (processEntities_flags w e).1

theorem processEntities_bye (w : RawWitD) (e : Eph) :
    (processEntities w e).bye = e.bye :=
  (processEntities_flags w e).2.1

theorem processEntities_sentiment (w : RawWitD) (e : Eph) :
    (processEntities w e).sentiment = e.sentiment :=
  (processEntities_flags w e).2.2

theorem processTraitsFlags_sentiment (w : RawWitD) (e : Eph) :
    (processTraitsFlags w e).sentiment = e.sentiment := by
  simp only [processTraitsFlags, apply_ite Eph.sentiment]
  simp

/-- Claim C4 (counterexample): a payload in which both the greetings
trait (confidence 0.9) and the bye trait (confidence 0.4) are present,
but which also carries a boundary-shaped sentiment trait, makes
normalization fail outright — it produces no ephemeral facts at all, so
neither flag is kept, although the claim requires greetings kept and bye
cleared for this very confidence pair. -/
theorem tiebreak_payload_crashes_normalization :
    normalize witBothTraits
      = .error "TypeError: cannot read property of undefined" := rfl

/-- Claim C4 (amended): for every raw NLU payload in which both the
greetings and the bye trait are present (in the boundary's
`{confidence, value?}` shape) and on which normalization succeeds,
exactly one of the two flags is kept: greetings is kept and bye cleared
precisely when the greetings confidence is strictly greater than the bye
confidence, and otherwise bye is kept and greetings cleared. -/
theorem greetings_bye_tiebreak_of_ok (w : RawWit) (gc bc : ℚ)
    (gv bv : Option String) (e : Eph)
    (hg : ((defaultWit w).traits).lookup "wit$greetings"
      = some (TraitVal.obj gc gv))
    (hb : ((defaultWit w).traits).lookup "wit$bye"
      = some (TraitVal.obj bc bv))
    (hok : normalize w = .ok e) :
    e.greetings = decide (gc > bc) ∧ e.bye = !decide (gc > bc) := by
  have hflags :
      (processTraitsFlags (defaultWit w) ephDefault).greetings
        = decide (gc > bc) ∧
      (processTraitsFlags (defaultWit w) ephDefault).bye
        = !decide (gc > bc) := by
    by_cases h : gc > bc <;>
      simp [processTraitsFlags, hg, hb, optGt, traitConfidence, h]
  unfold normalize at hok
  cases hs : ((defaultWit w).traits).lookup "wit$sentiment" with
  | none =>
    simp only [processTraits, hs] at hok
    obtain rfl := (Except.ok.inj hok).symm
    simp [processEntities_greetings, processEntities_bye, processIntents,
      hflags.1, hflags.2]
  | some tv =>
    cases hsr : sentimentRead tv with
    | error m =>
      simp only [processTraits, hs, hsr] at hok
      exact Except.noConfusion hok
    | ok v =>
      simp only [processTraits, hs, hsr] at hok
      obtain rfl := (Except.ok.inj hok).symm
      simp [processEntities_greetings, processEntities_bye, processIntents,
        hflags.1, hflags.2]

/-- Witness for C4's amended theorem at the concrete 0.9-versus-0.4
payload (no sentiment trait, so normalization succeeds): greetings is
kept and bye cleared. -/
theorem greetings_bye_tiebreak_witness :
    (((defaultWit witGreetBye).traits).lookup "wit$greetings"
        = some (TraitVal.obj 0.9 none) ∧
      ((defaultWit witGreetBye).traits).lookup "wit$bye"
        = some (TraitVal.obj 0.4 none) ∧
      normalize witGreetBye = .ok { ephDefault with greetings := true }) ∧
    (decide ((0.9 : ℚ) > 0.4) = true ∧
      ({ ephDefault with greetings := true } : Eph).greetings
          = decide ((0.9 : ℚ) > 0.4) ∧
        ({ ephDefault with greetings := true } : Eph).bye
          = !decide ((0.9 : ℚ) > 0.4)) :=
  ⟨⟨rfl, rfl, by with_unfolding_all rfl⟩,
    by with_unfolding_all rfl,
    greetings_bye_tiebreak_of_ok witGreetBye 0.9 0.4 none none
      { ephDefault with greetings := true } rfl rfl
      (by with_unfolding_all rfl)⟩

/-- Claim C7 (amended): normalization never fails provided every present
`wit$sentiment` trait is a nonempty list of records; missing
`intents`/`entities`/`traits` sub-fields are defaulted to empty
structures, and the sentiment fact is the first reported sentiment value
when present, else the default neutral. -/
theorem normalize_total_for_list_sentiment (w : RawWit)
    (h : ∀ tv, ((defaultWit w).traits).lookup "wit$sentiment" = some tv →
      ∃ el tl, tv = TraitVal.arr (el :: tl)) :
    ∃ e, normalize w = .ok e ∧
      e.sentiment = (match ((defaultWit w).traits).lookup "wit$sentiment" with
        | some (TraitVal.arr (el :: _)) => el.value
        | _ => "neutral") := by
  cases hl : ((defaultWit w).traits).lookup "wit$sentiment" with
  | none =>
    refine ⟨processEntities (defaultWit w) (processIntents (defaultWit w)
      (processTraitsFlags (defaultWit w) ephDefault)),
      by simp [normalize, processTraits, hl], ?_⟩
    simp [hl, processIntents, processEntities_sentiment,
      processTraitsFlags_sentiment, ephDefault]
  | some tv =>
    obtain ⟨el, tl, rfl⟩ := h tv hl
    refine ⟨processEntities (defaultWit w) (processIntents (defaultWit w)
      { processTraitsFlags (defaultWit w) ephDefault with
          sentiment := el.value }),
      by simp [normalize, processTraits, hl, sentimentRead], ?_⟩
    simp [hl, processIntents, processEntities_sentiment]

/-- Witness for C7's amended theorem at a concrete list-shaped
sentiment payload. -/
theorem normalize_total_witness :
    (∀ tv, ((defaultWit witSentimentArr).traits).lookup "wit$sentiment"
        = some tv → ∃ el tl, tv = TraitVal.arr (el :: tl)) ∧
    ∃ e, normalize witSentimentArr = .ok e ∧ e.sentiment = "positive" := by
  have hh : ∀ tv, ((defaultWit witSentimentArr).traits).lookup "wit$sentiment"
      = some tv → ∃ el tl, tv = TraitVal.arr (el :: tl) := by
    intro tv htv
    have : TraitVal.arr [⟨some 1, "positive"⟩] = tv := by
      simpa [defaultWit, witSentimentArr, List.lookup] using htv
    exact ⟨⟨some 1, "positive"⟩, [], this.symm⟩
  exact ⟨hh, normalize_total_for_list_sentiment witSentimentArr hh⟩

theorem declining_rules_still_emit_message :
    runRules (stateRules msgs0 qe0 0 ephOther "delete_account")
        ⟨[], [], ctxStale⟩
      = (⟨[msgs0.confused], [], ctxStale⟩, none) ∧
    execute msgs0 qe0 0 ephOther 1 "delete_account" ⟨[], [], ctxStale⟩
      = some ("delete_account", ⟨[msgs0.confused], [], ctxStale⟩) ∧
    [msgs0.confused] ≠ ([] : List String) :=
  ⟨rfl, rfl, by decide⟩

/-- Claim C6 (amended): supplying all three expense facts — a nonempty
item, a nonzero money amount and a moment — in one turn from `main` with
intent `add_expense` runs the epsilon chain `main → add_expense` to
completion: the final state is `main`, exactly one `add_expense` action
is emitted with exactly the supplied fields, the only context fields the
rule engine touches are the three expense slots, and the single reply is
the completion confirmation. -/
theorem add_expense_single_turn_completion (M : Msgs) (qe : QE) (now : DT)
    (gr byF thF : Bool) (snt bodyS g : String) (s : String) (v : ℚ) (t : DT)
    (iv : Option IntervalFact) (ctx : IRobinContext) (n : Nat)
    (hs : s ≠ "") (hv : v ≠ 0) :
    execute M qe now
        ⟨gr, byF, thF, snt, "add_expense", some s, some ⟨bodyS, v⟩,
          some ⟨g, t⟩, iv⟩
        (n + 2) "main" ⟨[], [], ctx⟩
      = some ("main",
          ⟨[M.expenseCompleted],
            [⟨"add_expense", s, v, t⟩],
            { ctx with
                currentExpenseItem := some s
                currentExpenseIncurredOn := some t
                currentExpenseValue := some v }⟩) := by
  have hs' : sTruthy (some s) = true := by simp [sTruthy, hs]
  have hv' : qTruthy (some v) = true := by simp [qTruthy, hv]
  simp [execute, stateRules, runRules, ruleRequestHelp, ruleTellJoke,
    ruleWhoAreYou, ruleAreYouBot, ruleDeleteAccount, ruleSetBudgetIntent,
    ruleQueryBudget, ruleQueryAffordability, ruleAddExpenseIntent,
    ruleAddExpense, fillItem, fillMoment, fillValue, sTruthy, qTruthy,
    hs, hv, say, action]

/-- Witness for C6's amended theorem at a concrete full-slot turn. -/
theorem add_expense_single_turn_witness :
    ("coffee" ≠ "" ∧ (5 : ℚ) ≠ 0) ∧
    execute msgs0 qe0 0
        ⟨false, false, false, "neutral", "add_expense", some "coffee",
          some ⟨"$5", 5⟩, some ⟨"day", 3⟩, none⟩
        8 "main" ⟨[], [], defaultContext 0⟩
      = some ("main",
          ⟨[msgs0.expenseCompleted],
            [⟨"add_expense", "coffee", 5, 3⟩],
            { defaultContext 0 with
                currentExpenseItem := some "coffee"
                currentExpenseIncurredOn := some 3
                currentExpenseValue := some 5 }⟩) :=
  ⟨⟨by decide, by decide⟩,
    add_expense_single_turn_completion msgs0 qe0 0 false false false
      "neutral" "$5" "day" "coffee" 5 3 none (defaultContext 0) 6
      (by decide) (by decide)⟩

/-- Claim C6 (counterexample): with all three expense facts supplied but
the item fact being the empty string (falsy in the source's JS
truthiness), the turn from `main` with intent `add_expense` ends in
state `specify_expense_item` with no action emitted — not in `main` with
one `add_expense` action as the claim requires. -/
theorem add_expense_empty_item_no_action :
    (execute msgs0 qe0 0 ephEmptyItem 8 "main" ⟨[], [], defaultContext 0⟩).map
        (fun r => (r.1, r.2.actions))
      = some ("specify_expense_item", []) := rfl

theorem tell_joke_step (M : Msgs) (qe : QE) (now : DT) (c : IRobinContext)
    (h : c.state = "main") :
    transitionF M qe now ephTellJoke () 8 c
      = some { context := { c with
                 state := "main"
                 jokeCounter := min (c.jokeCounter + 1) M.joke.length
                 lastJokeOn := now
                 messageCounter := c.messageCounter + 1
                 lastMessageOn := now }
               messages := [M.joke.getD c.jokeCounter M.doneJoking]
               actions := []
               wit := () } := by
  rcases c with ⟨act, st, un, lm, mc, lg, jc, lj, bu, ci, cv, cio⟩
  subst h
  rfl

theorem jokeIter_inv (M : Msgs) (qe : QE) (now : DT) (c : IRobinContext)
    (h1 : c.state = "main") (h2 : c.jokeCounter ≤ M.joke.length) (k : Nat) :
    ((jokeStep M qe now)^[k] c).state = "main" ∧
    ((jokeStep M qe now)^[k] c).jokeCounter ≤ M.joke.length := by
  induction k with
  | zero => exact ⟨h1, h2⟩
  | succ k ih =>
    rw [Function.iterate_succ_apply']
    have hs := tell_joke_step M qe now _ ih.1
    constructor
    · simp [jokeStep, hs]
    · simp only [jokeStep, hs]
      exact min_le_right _ _

/-- Claim C9: along any sequence of joke-requesting turns from `main`
(starting with a counter within the catalog's joke-list length, as the
default context does), the joke counter never exceeds the joke-list
length, each joke told increments it by at most one, and once it has
reached the list length the turn's only reply is the fixed done-joking
filler message. -/
theorem joke_counter_saturates (M : Msgs) (qe : QE) (now : DT)
    (c : IRobinContext) (h1 : c.state = "main")
    (h2 : c.jokeCounter ≤ M.joke.length) (k : Nat) :
    ((jokeStep M qe now)^[k] c).jokeCounter ≤ M.joke.length ∧
    ((jokeStep M qe now)^[k + 1] c).jokeCounter
      ≤ ((jokeStep M qe now)^[k] c).jokeCounter + 1 ∧
    (((jokeStep M qe now)^[k] c).jokeCounter = M.joke.length →
      (transitionF M qe now ephTellJoke () 8
          ((jokeStep M qe now)^[k] c)).map (fun r => r.messages)
        = some [M.doneJoking]) := by
  obtain ⟨hst, hle⟩ := jokeIter_inv M qe now c h1 h2 k
  have hs := tell_joke_step M qe now _ hst
  refine ⟨hle, ?_, ?_⟩
  · rw [Function.iterate_succ_apply']
    simp only [jokeStep, hs]
    exact min_le_left _ _
  · intro heq
    rw [hs]
    simp [heq, List.getD_eq_default]

/-- Witness for C9 at a saturated concrete context (joke list of length
two, counter already two). -/
theorem joke_counter_saturates_witness :
    ({ ctxMain with jokeCounter := 2 } : IRobinContext).state = "main" ∧
    ({ ctxMain with jokeCounter := 2 } : IRobinContext).jokeCounter
      ≤ msgs0.joke.length ∧
    (((jokeStep msgs0 qe0 99)^[0] { ctxMain with jokeCounter := 2 }).jokeCounter
        ≤ msgs0.joke.length ∧
      ((jokeStep msgs0 qe0 99)^[0 + 1]
          { ctxMain with jokeCounter := 2 }).jokeCounter
        ≤ ((jokeStep msgs0 qe0 99)^[0]
            { ctxMain with jokeCounter := 2 }).jokeCounter + 1 ∧
      (((jokeStep msgs0 qe0 99)^[0]
          { ctxMain with jokeCounter := 2 }).jokeCounter = msgs0.joke.length →
        (transitionF msgs0 qe0 99 ephTellJoke () 8
            ((jokeStep msgs0 qe0 99)^[0]
              { ctxMain with jokeCounter := 2 })).map (fun r => r.messages)
          = some [msgs0.doneJoking])) :=
  ⟨rfl, by decide,
    joke_counter_saturates msgs0 qe0 99 { ctxMain with jokeCounter := 2 }
      rfl (by decide) 0⟩

theorem add_expense_value_loop (M : Msgs) (qe : QE) (now : DT) (eph : Eph)
    (b : String) (hm : eph.money = some ⟨b, 0⟩) :
    ∀ (n : Nat) (es : EState),
      sTruthy es.ctx.currentExpenseItem = true →
      es.ctx.currentExpenseIncurredOn.isNone = false →
      qTruthy es.ctx.currentExpenseValue = false →
      execute M qe now eph n "add_expense" es = none ∧
      execute M qe now eph n "specify_expense_value" es = none := by
  intro n
  induction n with
  | zero => intro es _ _ _; exact ⟨rfl, rfl⟩
  | succ n ih =>
    intro es h1 h2 h3
    obtain ⟨s, hci⟩ : ∃ s, es.ctx.currentExpenseItem = some s := by
      cases hx : es.ctx.currentExpenseItem with
      | none => rw [hx] at h1; simp [sTruthy] at h1
      | some s => exact ⟨s, rfl⟩
    have hsne : s ≠ "" := by
      rw [hci] at h1; simpa [sTruthy] using h1
    obtain ⟨t, hct⟩ : ∃ t, es.ctx.currentExpenseIncurredOn = some t := by
      cases hx : es.ctx.currentExpenseIncurredOn with
      | none => rw [hx] at h2; simp at h2
      | some t => exact ⟨t, rfl⟩
    have hcv : es.ctx.currentExpenseValue = none ∨
        es.ctx.currentExpenseValue = some 0 := by
      cases hx : es.ctx.currentExpenseValue with
      | none => exact Or.inl rfl
      | some v =>
        rw [hx] at h3
        simp [qTruthy] at h3
        exact Or.inr (by rw [h3])
    constructor
    · rcases hcv with hv | hv
      · simp only [execute, stateRules, runRules, ruleAddExpense, fillItem,
          fillMoment, fillValue, hm, hci, hct, hv]
        simp [hm, hci, hct, hv, sTruthy, qTruthy, hsne]
        refine (ih _ ?_ ?_ ?_).2 <;> simp [sTruthy, qTruthy, hsne]
      · simp only [execute, stateRules, runRules, ruleAddExpense, fillItem,
          fillMoment, fillValue, hm, hci, hct, hv]
        simp [hm, hci, hct, hv, sTruthy, qTruthy, hsne]
        refine (ih _ ?_ ?_ ?_).2 <;> simp [sTruthy, qTruthy, hsne]
    · simp only [execute, stateRules, runRules, ruleSpecifyValue, hm]
      simp [hm, hci, hct, sTruthy, qTruthy, hsne]
      refine (ih _ ?_ ?_ ?_).1 <;> simp [sTruthy, qTruthy, hsne]

/-- Claim C2 (counterexample): starting from the initial durable context
(state `init`) with the ephemeral facts of a turn that supplies an item,
a moment and a money amount of `0`, the epsilon recursion revisits
`add_expense` and `specify_expense_value` under the same facts forever —
`execute` completes under no fuel bound, because the zero amount is
falsy and the value slot is treated as still missing each time. -/
theorem epsilon_recursion_diverges_on_zero_money :
    ¬ ∃ n r, execute msgs0 qe0 0 ephZeroMoney n "init"
        ⟨[], [], defaultContext 0⟩ = some r := by
  rintro ⟨n, r, h⟩
  rcases n with _ | n
  · exact Option.noConfusion h
  rcases n with _ | n
  · rw [show execute msgs0 qe0 0 ephZeroMoney 1 "init"
        ⟨[], [], defaultContext 0⟩ = none from rfl] at h
    exact Option.noConfusion h
  rcases n with _ | n
  · rw [show execute msgs0 qe0 0 ephZeroMoney 2 "init"
        ⟨[], [], defaultContext 0⟩ = none from rfl] at h
    exact Option.noConfusion h
  · rw [show execute msgs0 qe0 0 ephZeroMoney (n + 3) "init"
          ⟨[], [], defaultContext 0⟩
        = execute msgs0 qe0 0 ephZeroMoney n "specify_expense_value"
            esLoopZero from rfl] at h
    rw [(add_expense_value_loop msgs0 qe0 0 ephZeroMoney "0" rfl n
      esLoopZero (by decide) (by decide) (by decide)).2] at h
    exact Option.noConfusion h


theorem stateRules_main (M : Msgs) (qe : QE) (now : DT) (eph : Eph) :
    stateRules M qe now eph "main"
      = [("request_help", ruleRequestHelp M eph),
         ("tell_joke", ruleTellJoke M now eph),
         ("who_are_you", ruleWhoAreYou M eph),
         ("are_you_bot", ruleAreYouBot M eph),
         ("delete_account", ruleDeleteAccount M eph),
         ("set_budget", ruleSetBudgetIntent eph),
         ("query_budget", ruleQueryBudget M qe now eph),
         ("query_affordability", ruleQueryAffordability M qe now eph),
         ("add_expense", ruleAddExpenseIntent M eph),
         ("query_summary", ruleQuerySummary M qe now eph),
         ("confused", ruleConfused M eph)] := rfl

theorem stateRules_addExpense (M : Msgs) (qe : QE) (now : DT) (eph : Eph) :
    stateRules M qe now eph "add_expense"
      = [("add_expense", ruleAddExpense M eph)] := rfl

theorem stateRules_specItem (M : Msgs) (qe : QE) (now : DT) (eph : Eph) :
    stateRules M qe now eph "specify_expense_item"
      = [("specify_expense_item", ruleSpecifyItem M eph)] := rfl

theorem stateRules_specMoment (M : Msgs) (qe : QE) (now : DT) (eph : Eph) :
    stateRules M qe now eph "specify_expense_moment"
      = [("specify_expense_moment", ruleSpecifyMoment M eph)] := rfl

theorem stateRules_specValue (M : Msgs) (qe : QE) (now : DT) (eph : Eph) :
    stateRules M qe now eph "specify_expense_value"
      = [("specify_expense_value", ruleSpecifyValue M eph)] := rfl

theorem stateRules_init (M : Msgs) (qe : QE) (now : DT) (eph : Eph) :
    stateRules M qe now eph "init"
      = [("first_interaction", ruleFirstInteraction M)] := rfl

theorem fillItem_item (eph : Eph) (es : EState) :
    sTruthy (fillItem eph es).ctx.currentExpenseItem
      = (sTruthy eph.item || sTruthy es.ctx.currentExpenseItem) := by
  cases hA : sTruthy eph.item <;>
    cases hB : sTruthy es.ctx.currentExpenseItem <;>
      simp_all [fillItem]

theorem fillItem_incurredOn (eph : Eph) (es : EState) :
    (fillItem eph es).ctx.currentExpenseIncurredOn
      = es.ctx.currentExpenseIncurredOn := by
  unfold fillItem; split_ifs <;> rfl

theorem fillItem_value (eph : Eph) (es : EState) :
    (fillItem eph es).ctx.currentExpenseValue
      = es.ctx.currentExpenseValue := by
  unfold fillItem; split_ifs <;> rfl

theorem fillMoment_item (eph : Eph) (es : EState) :
    (fillMoment eph es).ctx.currentExpenseItem
      = es.ctx.currentExpenseItem := by
  unfold fillMoment; split_ifs <;> rfl

theorem fillMoment_value (eph : Eph) (es : EState) :
    (fillMoment eph es).ctx.currentExpenseValue
      = es.ctx.currentExpenseValue := by
  unfold fillMoment; split_ifs <;> rfl

theorem fillMoment_isNone (eph : Eph) (es : EState) :
    (fillMoment eph es).ctx.currentExpenseIncurredOn.isNone
      = (es.ctx.currentExpenseIncurredOn.isNone
          && eph.moment.isNone && eph.interval.isNone) := by
  cases hm : eph.moment <;> cases hv : eph.interval <;>
    cases hc : es.ctx.currentExpenseIncurredOn <;>
      simp [fillMoment, hm, hv, hc]

theorem fillValue_item (eph : Eph) (es : EState) :
    (fillValue eph es).ctx.currentExpenseItem
      = es.ctx.currentExpenseItem := by
  unfold fillValue; split_ifs <;> rfl

theorem fillValue_incurredOn (eph : Eph) (es : EState) :
    (fillValue eph es).ctx.currentExpenseIncurredOn
      = es.ctx.currentExpenseIncurredOn := by
  unfold fillValue; split_ifs <;> rfl

theorem fillValue_qTruthy (eph : Eph) (es : EState) :
    qTruthy (fillValue eph es).ctx.currentExpenseValue
      = (qTruthy es.ctx.currentExpenseValue
          || qTruthy (eph.money.map MoneyFact.value)) := by
  cases hm : eph.money <;>
    cases hq : qTruthy es.ctx.currentExpenseValue <;>
      simp_all [fillValue, qTruthy]

theorem exec_sb (M : Msgs) (qe : QE) (now : DT) (eph : Eph) (n : Nat)
    (es : EState) :
    (execute M qe now eph (n + 1) "set_budget" es).isSome := by
  cases hm : eph.money <;>
    simp [execute, stateRules, runRules, ruleSetBudget, hm]

theorem exec_da (M : Msgs) (qe : QE) (now : DT) (eph : Eph) (n : Nat)
    (es : EState) :
    (execute M qe now eph (n + 1) "delete_account" es).isSome := by
  simp only [execute, stateRules, runRules, ruleConfirmation]
  split_ifs <;> simp_all

theorem exec_add (M : Msgs) (qe : QE) (now : DT) (eph : Eph)
    (h : moneyOK eph) (n : Nat) (es : EState) :
    (execute M qe now eph (n + 2) "add_expense" es).isSome := by
  have hmv : qTruthy (eph.money.map MoneyFact.value) = eph.money.isSome := by
    cases hm : eph.money with
    | none => simp [qTruthy]
    | some m => simp [qTruthy, h m hm]
  show (execute M qe now eph ((n + 1) + 1) "add_expense" es).isSome
  simp only [execute, stateRules_addExpense, stateRules_specItem,
    stateRules_specMoment, stateRules_specValue, runRules, ruleAddExpense,
    ruleSpecifyItem, ruleSpecifyMoment, ruleSpecifyValue, epsTgt_specItemE,
    epsTgt_specMomentE, epsTgt_specValueE]
  simp only [fillValue_item, fillMoment_item, fillItem_item,
    fillValue_incurredOn, fillMoment_isNone, fillItem_incurredOn,
    fillValue_qTruthy, fillMoment_value, fillItem_value, hmv]
  split_ifs <;>
    simp_all [runRules, stateRules_specItem, stateRules_specMoment,
      stateRules_specValue, ruleSpecifyItem, ruleSpecifyMoment,
      ruleSpecifyValue]

theorem exec_specItem_aux (M : Msgs) (qe : QE) (now : DT) (eph : Eph)
    (f : Nat) (hf : ∀ es', (execute M qe now eph f "add_expense" es').isSome)
    (es : EState) :
    (execute M qe now eph (f + 1) "specify_expense_item" es).isSome := by
  simp only [execute, stateRules_specItem, runRules, ruleSpecifyItem,
    epsTgt_addExpenseE]
  split_ifs <;> simp_all [hf]

theorem exec_specMoment_aux (M : Msgs) (qe : QE) (now : DT) (eph : Eph)
    (f : Nat) (hf : ∀ es', (execute M qe now eph f "add_expense" es').isSome)
    (es : EState) :
    (execute M qe now eph (f + 1) "specify_expense_moment" es).isSome := by
  simp only [execute, stateRules_specMoment, runRules, ruleSpecifyMoment,
    epsTgt_addExpenseE]
  split_ifs <;> simp_all [hf]

theorem exec_specValue_aux (M : Msgs) (qe : QE) (now : DT) (eph : Eph)
    (f : Nat) (hf : ∀ es', (execute M qe now eph f "add_expense" es').isSome)
    (es : EState) :
    (execute M qe now eph (f + 1) "specify_expense_value" es).isSome := by
  simp only [execute, stateRules_specValue, runRules, ruleSpecifyValue,
    epsTgt_addExpenseE]
  rcases hm : eph.money <;> simp [hm, hf]

theorem exec_main_aux (M : Msgs) (qe : QE) (now : DT) (eph : Eph) (f : Nat)
    (hsb : ∀ es', (execute M qe now eph f "set_budget" es').isSome)
    (hae : ∀ es', (execute M qe now eph f "add_expense" es').isSome)
    (es : EState) :
    (execute M qe now eph (f + 1) "main" es).isSome := by
  by_cases h1 : eph.intent = "request_help"
  · simp [execute, stateRules_main, runRules, ruleRequestHelp, h1]
  by_cases h2 : eph.intent = "tell_joke"
  · simp [execute, stateRules_main, runRules, ruleRequestHelp, ruleTellJoke,
      h2]
  by_cases h3 : eph.intent = "who_are_you"
  · simp [execute, stateRules_main, runRules, ruleRequestHelp, ruleTellJoke,
      ruleWhoAreYou, h3]
  by_cases h4 : eph.intent = "are_you_bot"
  · simp [execute, stateRules_main, runRules, ruleRequestHelp, ruleTellJoke,
      ruleWhoAreYou, ruleAreYouBot, h4]
  by_cases h5 : eph.intent = "delete_account"
  · simp [execute, stateRules_main, runRules, ruleRequestHelp, ruleTellJoke,
      ruleWhoAreYou, ruleAreYouBot, ruleDeleteAccount, h5]
  by_cases h6 : eph.intent = "set_budget"
  · simp [execute, stateRules_main, runRules, ruleRequestHelp, ruleTellJoke,
      ruleWhoAreYou, ruleAreYouBot, ruleDeleteAccount, ruleSetBudgetIntent,
      h6, hsb]
  by_cases h7 : eph.intent = "query_budget"
  · simp [execute, stateRules_main, runRules, ruleRequestHelp, ruleTellJoke,
      ruleWhoAreYou, ruleAreYouBot, ruleDeleteAccount, ruleSetBudgetIntent,
      ruleQueryBudget, h7]
  by_cases h8 : eph.intent = "query_affordability"
  · rcases hmy : eph.money <;>
      simp [execute, stateRules_main, runRules, ruleRequestHelp,
        ruleTellJoke, ruleWhoAreYou, ruleAreYouBot, ruleDeleteAccount,
        ruleSetBudgetIntent, ruleQueryBudget, ruleQueryAffordability,
        h8, hmy]
  by_cases h9 : eph.intent = "add_expense"
  · simp [execute, stateRules_main, runRules, ruleRequestHelp, ruleTellJoke,
      ruleWhoAreYou, ruleAreYouBot, ruleDeleteAccount, ruleSetBudgetIntent,
      ruleQueryBudget, ruleQueryAffordability, ruleAddExpenseIntent,
      h9, hae]
  by_cases h10 : eph.intent = "query_summary"
  · rcases hiv : eph.interval <;> rcases hmo : eph.moment <;>
      simp [execute, stateRules_main, runRules, ruleRequestHelp,
        ruleTellJoke, ruleWhoAreYou, ruleAreYouBot, ruleDeleteAccount,
        ruleSetBudgetIntent, ruleQueryBudget, ruleQueryAffordability,
        ruleAddExpenseIntent, ruleQuerySummary, apply_ite,
        h10, hiv, hmo]
  · simp [execute, stateRules_main, runRules, ruleRequestHelp, ruleTellJoke,
      ruleWhoAreYou, ruleAreYouBot, ruleDeleteAccount, ruleSetBudgetIntent,
      ruleQueryBudget, ruleQueryAffordability, ruleAddExpenseIntent,
      ruleQuerySummary, ruleConfused,
      h1, h2, h3, h4, h5, h6, h7, h8, h9, h10]

theorem exec_init_aux (M : Msgs) (qe : QE) (now : DT) (eph : Eph) (f : Nat)
    (hm : ∀ es', (execute M qe now eph f "main" es').isSome) (s : String)
    (hs : stateRules M qe now eph s = stateRules M qe now eph "init")
    (es : EState) :
    (execute M qe now eph (f + 1) s es).isSome := by
  simp only [execute, hs, stateRules_init, runRules, ruleFirstInteraction,
    epsTgt_mainE]
  exact hm _

/-- Claim C2 (amended): the epsilon-transition recursion of `execute`
terminates within the turn for every ephemeral-facts input whose money
fact, when present, carries a nonzero amount — for every start state and
every engine state; a fuel of 8 always suffices.  (Without that proviso
the recursion can revisit a state under the same facts; see the
counterexample.) -/
theorem epsilon_recursion_terminates_of_money_nonzero (M : Msgs) (qe : QE)
    (now : DT) (eph : Eph) (h : moneyOK eph) (s : String) (es : EState) :
    (execute M qe now eph 8 s es).isSome := by
  have hsb := exec_sb M qe now eph
  have hae := exec_add M qe now eph h
  have hmain : ∀ (n : Nat) (es' : EState),
      (execute M qe now eph (n + 3) "main" es').isSome := fun n es' =>
    exec_main_aux M qe now eph (n + 2) (hsb (n + 1)) (hae n) es'
  by_cases hs1 : s = "main"
  · subst hs1; exact hmain 5 es
  by_cases hs2 : s = "delete_account"
  · subst hs2; exact exec_da M qe now eph 7 es
  by_cases hs3 : s = "set_budget"
  · subst hs3; exact hsb 7 es
  by_cases hs4 : s = "add_expense"
  · subst hs4; exact hae 6 es
  by_cases hs5 : s = "specify_expense_item"
  · subst hs5; exact exec_specItem_aux M qe now eph 7 (hae 5) es
  by_cases hs6 : s = "specify_expense_moment"
  · subst hs6; exact exec_specMoment_aux M qe now eph 7 (hae 5) es
  by_cases hs7 : s = "specify_expense_value"
  · subst hs7; exact exec_specValue_aux M qe now eph 7 (hae 5) es
  · exact exec_init_aux M qe now eph 7 (hmain 4) s
      (by simp [stateRules, hs1, hs2, hs3, hs4, hs5, hs6, hs7]) es

/-- Witness for C2's amended theorem at a concrete nonzero-amount turn. -/
theorem epsilon_recursion_terminates_witness :
    moneyOK ephFull ∧
    (execute msgs0 qe0 0 ephFull 8 "main" ⟨[], [], defaultContext 0⟩).isSome := by
  have hm : moneyOK ephFull := by
    intro m hm
    obtain rfl : MoneyFact.mk "$5" 5 = m := by simpa [ephFull] using hm
    decide
  exact ⟨hm, epsilon_recursion_terminates_of_money_nonzero msgs0 qe0 0
    ephFull hm "main" ⟨[], [], defaultContext 0⟩⟩


theorem stateRules_setBudget (M : Msgs) (qe : QE) (now : DT) (eph : Eph) :
    stateRules M qe now eph "set_budget"
      = [("set_budget", ruleSetBudget M eph)] := rfl

theorem exec_sb_msgs (M : Msgs) (qe : QE) (now : DT) (eph : Eph) :
    ∀ (fuel : Nat) (es : EState) (r : String × EState),
      execute M qe now eph fuel "set_budget" es = some r →
      r.2.messages ≠ [] := by
  intro fuel es r h
  match fuel with
  | 0 => exact Option.noConfusion h
  | fuel + 1 =>
    rcases hm : eph.money with _ | m <;>
      simp only [execute, stateRules_setBudget, runRules, ruleSetBudget,
        hm] at h <;>
      (simp [say] at h; subst h; simp)

theorem exec_msgs_block (M : Msgs) (qe : QE) (now : DT) (eph : Eph) :
    ∀ (fuel : Nat) (es : EState) (r : String × EState),
      (execute M qe now eph fuel "add_expense" es = some r →
        r.2.messages ≠ []) ∧
      (execute M qe now eph fuel "specify_expense_item" es = some r →
        r.2.messages ≠ []) ∧
      (execute M qe now eph fuel "specify_expense_moment" es = some r →
        r.2.messages ≠ []) ∧
      (execute M qe now eph fuel "specify_expense_value" es = some r →
        r.2.messages ≠ []) := by
  intro fuel
  induction fuel with
  | zero => exact fun es r => ⟨fun h => Option.noConfusion h,
      fun h => Option.noConfusion h, fun h => Option.noConfusion h,
      fun h => Option.noConfusion h⟩
  | succ fuel ih =>
    intro es r
    refine ⟨?_, ?_, ?_, ?_⟩
    · intro h
      simp only [execute, stateRules_addExpense, runRules, ruleAddExpense] at h
      split_ifs at h <;>
        first
          | exact (ih (fillValue eph (fillMoment eph (fillItem eph es))) r).2.1
              (by simpa using h)
          | exact (ih (fillValue eph (fillMoment eph (fillItem eph es))) r).2.2.1
              (by simpa using h)
          | exact (ih (fillValue eph (fillMoment eph (fillItem eph es))) r).2.2.2
              (by simpa using h)
          | (simp [say, action] at h; subst h; simp [say, action]; done)
          | (exfalso; simp_all; done)
    · intro h
      simp only [execute, stateRules_specItem, runRules, ruleSpecifyItem] at h
      split_ifs at h <;>
        first
          | exact (ih { es with ctx :=
                { es.ctx with currentExpenseItem := eph.item } } r).1
              (by simpa using h)
          | (simp [say] at h; subst h; simp [say]; done)
          | (exfalso; simp_all; done)
    · intro h
      simp only [execute, stateRules_specMoment, runRules,
        ruleSpecifyMoment] at h
      split_ifs at h <;>
        first
          | exact (ih { es with ctx := { es.ctx with
                currentExpenseIncurredOn := eph.moment.map MomentFact.value } }
                r).1 (by simpa using h)
          | exact (ih { es with ctx := { es.ctx with
                currentExpenseIncurredOn :=
                  eph.interval.map (fun iv => iv.value.start) } } r).1
              (by simpa using h)
          | (simp [say] at h; subst h; simp [say]; done)
          | (exfalso; simp_all; done)
    · intro h
      rcases hm : eph.money with _ | m <;>
        simp only [execute, stateRules_specValue, runRules, ruleSpecifyValue,
          hm] at h
      · simp [say] at h
        subst h
        simp [say]
      · exact (ih { es with ctx := { es.ctx with
            currentExpenseValue := some m.value } } r).1 (by simpa using h)

set_option maxHeartbeats 1600000 in
theorem exec_main_msgs (M : Msgs) (qe : QE) (now : DT) (eph : Eph) :
    ∀ (fuel : Nat) (es : EState) (r : String × EState),
      execute M qe now eph fuel "main" es = some r → es.messages = [] →
      r.2.messages ≠ [] := by
  intro fuel es r h hm0
  match fuel with
  | 0 => exact Option.noConfusion h
  | fuel + 1 =>
    by_cases h1 : eph.intent = "request_help"
    · simp [execute, stateRules_main, runRules, ruleRequestHelp, h1,
        say] at h
      subst h
      simp
    by_cases h2 : eph.intent = "tell_joke"
    · simp [execute, stateRules_main, runRules, ruleRequestHelp,
        ruleTellJoke, h2, sayJoke, say] at h
      subst h
      simp
    by_cases h3 : eph.intent = "who_are_you"
    · simp [execute, stateRules_main, runRules, ruleRequestHelp,
        ruleTellJoke, ruleWhoAreYou, h3, say] at h
      subst h
      simp
    by_cases h4 : eph.intent = "are_you_bot"
    · simp [execute, stateRules_main, runRules, ruleRequestHelp,
        ruleTellJoke, ruleWhoAreYou, ruleAreYouBot, h4, say] at h
      subst h
      simp
    by_cases h5 : eph.intent = "delete_account"
    · simp [execute, stateRules_main, runRules, ruleRequestHelp,
        ruleTellJoke, ruleWhoAreYou, ruleAreYouBot, ruleDeleteAccount, h5,
        say] at h
      subst h
      simp
    by_cases h6 : eph.intent = "set_budget"
    · simp only [execute, stateRules_main, runRules, ruleRequestHelp,
        ruleTellJoke, ruleWhoAreYou, ruleAreYouBot, ruleDeleteAccount,
        ruleSetBudgetIntent] at h
      simp [h1, h2, h3, h4, h5, h6, epsTgt_setBudgetE] at h
      exact exec_sb_msgs M qe now eph fuel _ r h
    by_cases h7 : eph.intent = "query_budget"
    · simp [execute, stateRules_main, runRules, ruleRequestHelp,
        ruleTellJoke, ruleWhoAreYou, ruleAreYouBot, ruleDeleteAccount,
        ruleSetBudgetIntent, ruleQueryBudget, h7, say] at h
      subst h
      simp
    by_cases h8 : eph.intent = "query_affordability"
    · rcases hmy : eph.money with _ | m <;>
        (simp [execute, stateRules_main, runRules, ruleRequestHelp,
          ruleTellJoke, ruleWhoAreYou, ruleAreYouBot, ruleDeleteAccount,
          ruleSetBudgetIntent, ruleQueryBudget, ruleQueryAffordability, h8,
          hmy, say] at h; subst h; simp)
    by_cases h9 : eph.intent = "add_expense"
    · simp only [execute, stateRules_main, runRules, ruleRequestHelp,
        ruleTellJoke, ruleWhoAreYou, ruleAreYouBot, ruleDeleteAccount,
        ruleSetBudgetIntent, ruleQueryBudget, ruleQueryAffordability,
        ruleAddExpenseIntent] at h
      simp [h1, h2, h3, h4, h5, h6, h7, h8, h9, epsTgt_addExpenseE] at h
      exact (exec_msgs_block M qe now eph fuel _ r).1 h
    by_cases h10 : eph.intent = "query_summary"
    · rcases hiv : eph.interval with _ | iv <;>
        rcases hmo : eph.moment with _ | mo <;>
          (simp [execute, stateRules_main, runRules, ruleRequestHelp,
            ruleTellJoke, ruleWhoAreYou, ruleAreYouBot, ruleDeleteAccount,
            ruleSetBudgetIntent, ruleQueryBudget, ruleQueryAffordability,
            ruleAddExpenseIntent, ruleQuerySummary, h10, hiv, hmo] at h;
           split_ifs at h <;>
             first
               | (simp [say] at h; subst h; simp [say]; done)
               | ((try simp [say] at h); subst h; simp [say]; done)
               | (exfalso; simp_all; done))
    · simp [execute, stateRules_main, runRules, ruleRequestHelp,
        ruleTellJoke, ruleWhoAreYou, ruleAreYouBot, ruleDeleteAccount,
        ruleSetBudgetIntent, ruleQueryBudget, ruleQueryAffordability,
        ruleAddExpenseIntent, ruleQuerySummary, ruleConfused,
        h1, h2, h3, h4, h5, h6, h7, h8, h9, h10, hm0, say] at h
      split_ifs at h <;>
        first
          | (subst h; simp [hm0])
          | (simp at h; subst h; simp [hm0]; done)
          | (exfalso; simp_all; done)

/-- Claim C10 (amended): every turn that begins in state `main` and
completes emits at least one reply message, for every combination of
ephemeral facts and every catalog and context: each intent rule emits or
epsilon-chains into a state that emits, and the catch-all confused rule
fires and emits whenever the turn's message list is still empty.
(A zero-amount expense turn never completes and emits nothing; see the
counterexample.) -/
theorem completed_main_turn_emits_reply {W : Type} (M : Msgs) (qe : QE)
    (now : DT) (eph : Eph) (w : W) (fuel : Nat) (ctx : IRobinContext)
    (r : IRobinResult W) (h1 : ctx.state = "main")
    (h2 : transitionF M qe now eph w fuel ctx = some r) :
    r.messages ≠ [] := by
  simp only [transitionF, h1] at h2
  rcases hex : execute M qe now eph fuel "main" ⟨[], [], ctx⟩ with _ | ⟨s', es'⟩
  · rw [hex] at h2
    exact Option.noConfusion h2
  · rw [hex] at h2
    have hne := exec_main_msgs M qe now eph fuel ⟨[], [], ctx⟩ (s', es') hex rfl
    obtain rfl := Option.some.inj h2
    simpa using hne

/-- Witness for C10's amended theorem: a fresh `main` turn with no
recognized intent completes and replies with the confusion message. -/
theorem completed_main_turn_witness :
    ctxMain.state = "main" ∧
    transitionF msgs0 qe0 0 ephDefault () 8 ctxMain
      = some { context := { ctxMain with messageCounter := 1, lastMessageOn := 0 },
               messages := [msgs0.confused], actions := [], wit := () } ∧
    ([msgs0.confused] : List String) ≠ [] :=
  ⟨rfl, rfl,
    completed_main_turn_emits_reply msgs0 qe0 0 ephDefault () 8 ctxMain
      { context := { ctxMain with messageCounter := 1, lastMessageOn := 0 },
        messages := [msgs0.confused], actions := [], wit := () } rfl rfl⟩

/-- Claim C10 (counterexample): a turn beginning in `main` whose facts
carry intent `add_expense`, an item, a moment and a zero money amount
never completes — the epsilon recursion cycles between `add_expense` and
`specify_expense_value` — so the turn emits no reply message at all. -/
theorem main_turn_can_emit_no_reply :
    ¬ ∃ n r, transitionF msgs0 qe0 0 ephZeroMoney2 () n ctxMain = some r := by
  rintro ⟨n, r, h⟩
  rcases n with _ | n
  · exact Option.noConfusion h
  rcases n with _ | n
  · rw [show transitionF msgs0 qe0 0 ephZeroMoney2 () 1 ctxMain = none
        from rfl] at h
    exact Option.noConfusion h
  · have hloop := (add_expense_value_loop msgs0 qe0 0 ephZeroMoney2 "0" rfl n
      esLoopZero2 (by decide) (by decide) (by decide)).2
    rw [show transitionF msgs0 qe0 0 ephZeroMoney2 () (n + 2) ctxMain
        = (match execute msgs0 qe0 0 ephZeroMoney2 n "specify_expense_value"
              esLoopZero2 with
           | none => none
           | some (s', es') =>
             some { context := { es'.ctx with
                      state := s'
                      messageCounter := es'.ctx.messageCounter + 1
                      lastMessageOn := 0 }
                    messages := es'.messages
                    actions := es'.actions
                    wit := () }) from rfl] at h
    rw [hloop] at h
    exact Option.noConfusion h

end Robin
